import Mathlib

/-!
Shallow embedding of the blockchain engagement engine of the
altcoin-atomic-trading-platform repository (the `EthEngine` class):
the contract invoker `callFunction` / `isMethodPayable` and the
concurrent block-range scanner `scanBlockRange`.

External node behaviour (gas estimation results, block contents,
send/call outcomes) is supplied through explicit environment records;
the single-threaded JavaScript event loop is modelled as a scheduler
that fires the pending `getBlock` callbacks in an arbitrary order.
-/

/-- Confirmation modes of the invoker.  In the source this is the
`EthConfirmation` enum with RECEIPT = 0, CONFIRMATION = 1, STATIC = 2. -/
inductive EthConfirmation where
  | RECEIPT
  | CONFIRMATION
  | STATIC
deriving DecidableEq

/-- One entry of an ABI list as the engine reads it: only the `name`
and `constant` properties are consulted; either may be absent
(JavaScript `undefined`), which Option captures. -/
structure AbiEntry where
  name : Option String
  constant : Option Bool
deriving DecidableEq

/-- `EthEngine.isMethodPayable`: linear scan of the ABI entry list;
on the first entry whose `name` equals the method name it returns
`!entry.constant` (with `!undefined = true`), and a name matching no
entry yields `false`. -/
def isMethodPayable (name : String) : List AbiEntry → Bool
  | [] => false
  | e :: rest =>
    if e.name = some name then !(e.constant.getD false)
    else isMethodPayable name rest

/-- The fields of the `generalParams` object that `callFunction`
reads or writes (`gas` and `gasLimit`); absent fields are `none`. -/
structure GeneralParams where
  gas : Option Int
  gasLimit : Option Int
deriving DecidableEq

/-- The engine state consulted by `callFunction`: its bound ABI, the
property read `this.abiConfiguration.defaultWallet` (an arbitrary
property access on the ABI value, hence optional), the configured
default wallet, and the bound contract bytecode `this.bin.code`. -/
structure EthEngineState where
  abiConfiguration : List AbiEntry
  abiConfigurationDefaultWallet : Option String
  configurationDefaultWallet : String
  binCode : String
deriving DecidableEq

/-- Replies of the external node/contract for one invocation:
the gas estimate, the deployed bytecode, and the outcome of each of
the three dispatch paths. -/
structure NodeEnv where
  estimateGasResult : Int
  getCodeResult : String
  sendReceiptResult : Except String String
  sendConfirmationResult : Except String (Int × String)
  staticCallResult : Except String String

/-- Arguments passed to `web3.eth.estimateGas` at line 125 of the
source: `{data: code, to: defaultWallet}` (the `to` field is named
`toAddr` here because `to` is reserved in Lean). -/
structure EstimateGasArgs where
  data : Option String
  toAddr : Option String
deriving DecidableEq

/-- Terminal outcome of an invocation promise. -/
inductive CallOutcome where
  | resolvedReceipt (receipt : String)
  | resolvedConfirmed (confNumber : Int) (receipt : String)
  | resolvedStaticValue (value : String)
  | rejected (err : String)
deriving DecidableEq

/-- Observable trace of one `callFunction` invocation: how many times
each node capability was hit, the gas fields after planning, and the
outcome delivered to the caller. -/
structure CallTrace where
  getCodeCalls : Nat
  estimateGasCalls : Nat
  estimateGasArgs : Option EstimateGasArgs
  sendCalls : Nat
  staticCalls : Nat
  dispatchedGas : Option Int
  dispatchedGasLimit : Option Int
  outcome : CallOutcome
deriving DecidableEq

/-- JavaScript truthiness of an optional string value (`undefined`,
`null` and `""` are falsy). -/
def strTruthy : Option String → Bool
  | none => false
  | some s => if s = "" then false else true

/-- `EthEngine.callFunction`.  Positional params are forwarded
opaquely to the external contract object and do not influence the
trace, so they are not modelled.  The contract method object itself
is external; its three dispatch paths report the corresponding
`NodeEnv` outcome. -/
def callFunction (eng : EthEngineState) (env : NodeEnv) (name : String)
    (generalParams : GeneralParams) (confirmation : Option EthConfirmation)
    (abi : Option (List AbiEntry)) (contractAddress : Option String) : CallTrace :=
  -- line 103: confirmation === undefined ? 0 : confirmation  (0 = RECEIPT)
  let conf : EthConfirmation :=
    match confirmation with
    | none => EthConfirmation.RECEIPT
    | some c => c
  -- line 108: payability from the supplied ABI if present, else the bound one
  let payable : Bool :=
    isMethodPayable name (match abi with
      | none => eng.abiConfiguration
      | some a => a)
  -- lines 110-121: ad-hoc contract branch iff (abi && contractAddress) is truthy
  let adhoc : Bool := abi.isSome && strTruthy contractAddress
  let code : Option String :=
    if adhoc then (if payable then some env.getCodeResult else none)
    else some eng.binCode
  let getCodeCalls : Nat := if adhoc && payable then 1 else 0
  let defaultWallet : Option String :=
    if adhoc then some eng.configurationDefaultWallet
    else eng.abiConfigurationDefaultWallet
  -- lines 123-128: gas planning, before the dispatch switch
  let planned : GeneralParams × Nat × Option EstimateGasArgs :=
    if generalParams.gas = none ∧ payable = true then
      ({ generalParams with
          gas := some env.estimateGasResult,
          gasLimit := some (env.estimateGasResult * 2) },
        1, some { data := code, toAddr := defaultWallet })
    else (generalParams, 0, none)
  -- lines 130-165: dispatch switch on the confirmation mode
  match conf with
  | EthConfirmation.RECEIPT =>
    { getCodeCalls := getCodeCalls, estimateGasCalls := planned.2.1,
      estimateGasArgs := planned.2.2, sendCalls := 1, staticCalls := 0,
      dispatchedGas := planned.1.gas, dispatchedGasLimit := planned.1.gasLimit,
      outcome :=
        match env.sendReceiptResult with
        | Except.ok r => CallOutcome.resolvedReceipt r
        | Except.error e => CallOutcome.rejected e }
  | EthConfirmation.CONFIRMATION =>
    { getCodeCalls := getCodeCalls, estimateGasCalls := planned.2.1,
      estimateGasArgs := planned.2.2, sendCalls := 1, staticCalls := 0,
      dispatchedGas := planned.1.gas, dispatchedGasLimit := planned.1.gasLimit,
      outcome :=
        match env.sendConfirmationResult with
        | Except.ok p => CallOutcome.resolvedConfirmed p.1 p.2
        | Except.error e => CallOutcome.rejected e }
  | EthConfirmation.STATIC =>
    { getCodeCalls := getCodeCalls, estimateGasCalls := planned.2.1,
      estimateGasArgs := planned.2.2, sendCalls := 0, staticCalls := 1,
      dispatchedGas := planned.1.gas, dispatchedGasLimit := planned.1.gasLimit,
      outcome :=
        match env.staticCallResult with
        | Except.ok v => CallOutcome.resolvedStaticValue v
        | Except.error e => CallOutcome.rejected e }

/-- A transaction of a fetched block; only the fields the scanner
reads (`to`, `from`, `value`), with `to`/`from` renamed because both
are reserved in Lean. -/
structure Txn where
  toAddr : String
  fromAddr : String
  value : Int
deriving DecidableEq

/-- A fetched block: timestamp plus its transaction list, which the
source guards with a truthiness check (`if (block.transactions)`),
hence Option. -/
structure ScanBlock where
  timestamp : Int
  transactions : Option (List Txn)
deriving DecidableEq

/-- Outcome of one `getBlock` fetch as seen by its callback: either a
node error or a block. -/
inductive FetchResult where
  | err
  | ok (block : ScanBlock)
deriving DecidableEq

/-- Direction of a matched transfer: the source pushes a `+amount`
message for a credit and a `-amount` message for a debit. -/
inductive Direction where
  | credit
  | debit
deriving DecidableEq

/-- One accumulated result entry.  The source pushes the display
string built from the block timestamp, the sign, the value converted
by the node utility `fromWei`, and the counterparty address; the same
data is kept structurally here (`fromWei` and string formatting are
external presentation). -/
structure Msg where
  timestamp : Int
  dir : Direction
  valueWei : Int
  counterparty : String
deriving DecidableEq

/-- Scan environment: the watched address (`web3.defaultAccount`) and
the node's reply for each block height. -/
structure ScanCfg where
  watched : String
  fetch : Int → FetchResult

/-- The engine's `maxThreads` field (line 18 of the source). -/
def maxThreads : Nat := 20

/-- Mutable state of one scan, as captured by the closure variables of
`scanBlockRange` (`blockNumber`, `gotError`, `numThreads`, `results`),
the set of in-flight `getBlock` callbacks, the promise settlement, and
the completion callback invocation.  `claimed`, `fetched`, `spawned`
and `erroredWorkers` are observation logs of the run. -/
structure ScanState where
  startB : Int
  stopB : Int
  blockNumber : Int
  gotError : Bool
  numThreads : Nat
  results : List Msg
  pending : List Int
  claimed : List Int
  fetched : List Int
  resolvedWith : Option (List Msg)
  callbackFired : Option Bool
  spawned : Nat
  erroredWorkers : Nat
deriving DecidableEq

/-- `scanTransactionCallback` (lines 257-276): a transaction whose
`to` field equals the watched address records a credit, else one whose
`from` field equals it records a debit. -/
def scanTransactionCallback (watched : String) (b : ScanBlock) (txn : Txn)
    (results : List Msg) : List Msg :=
  if txn.toAddr = watched then
    results ++ [{ timestamp := b.timestamp, dir := Direction.credit,
                  valueWei := txn.value, counterparty := txn.fromAddr }]
  else if txn.fromAddr = watched then
    results ++ [{ timestamp := b.timestamp, dir := Direction.debit,
                  valueWei := txn.value, counterparty := txn.toAddr }]
  else results

/-- `scanBlockCallback` (lines 299-306): iterate the block's
transactions when the list is present (truthy). -/
def scanBlockCallback (watched : String) (b : ScanBlock)
    (results : List Msg) : List Msg :=
  match b.transactions with
  | none => results
  | some txns => txns.foldl (fun acc t => scanTransactionCallback watched b t acc) results

/-- `exitThread` (lines 278-297): decrement `numThreads`; when it hits
zero print the throughput report and invoke the completion callback
with the error flag; then, unconditionally, resolve the promise with
the accumulated results (resolution being idempotent, the first call
wins). -/
def exitThread (st : ScanState) : ScanState :=
  { st with
    numThreads := st.numThreads - 1,
    callbackFired :=
      if st.numThreads - 1 = 0 then some st.gotError else st.callbackFired,
    resolvedWith :=
      match st.resolvedWith with
      | some v => some v
      | none => some st.results }

/-- `asyncScanNextBlock` (lines 308-343), up to the point where the
`getBlock` call is issued: exit on error flag or exhausted range,
otherwise claim `blockNumber++` and put the fetch in flight. -/
def asyncScanNextBlock (st : ScanState) : ScanState :=
  if st.gotError then exitThread st
  else if st.blockNumber > st.stopB then exitThread st
  else
    { st with
      blockNumber := st.blockNumber + 1,
      pending := st.pending ++ [st.blockNumber],
      claimed := st.claimed ++ [st.blockNumber] }

/-- The `getBlock` callback (lines 333-342), fired by the event loop
for an in-flight height `h`: on error set the scan-wide error flag and
stop (the worker exits without calling `exitThread`); on success
process the block and launch the next claim.  A height that is not in
flight has no outstanding callback, so the event is a no-op. -/
def getBlockCallback (cfg : ScanCfg) (st : ScanState) (h : Int) : ScanState :=
  if h ∈ st.pending then
    match cfg.fetch h with
    | FetchResult.err =>
      { st with pending := st.pending.erase h, fetched := st.fetched ++ [h],
                gotError := true, erroredWorkers := st.erroredWorkers + 1 }
    | FetchResult.ok b =>
      asyncScanNextBlock
        { st with pending := st.pending.erase h, fetched := st.fetched ++ [h],
                  results := scanBlockCallback cfg.watched b st.results }
  else st

/-- The event loop: fire the pending callbacks in the order given by
the schedule. -/
def runEvents (cfg : ScanCfg) : ScanState → List Int → ScanState
  | st, [] => st
  | st, h :: rest => runEvents cfg (getBlockCallback cfg st h) rest

/-- The spawn loop (lines 345-349):
`for (nt = 0; nt < maxThreads && startingBlock + nt <= stoppingBlock; nt++)`,
each iteration incrementing `numThreads` and calling
`asyncScanNextBlock`; the `nt < maxThreads` bound is the fuel. -/
def spawnLoop (st : ScanState) (nt : Nat) : Nat → ScanState
  | 0 => st
  | Nat.succ fuel =>
    if st.startB + (nt : Int) ≤ st.stopB then
      spawnLoop
        (asyncScanNextBlock
          { st with numThreads := st.numThreads + 1, spawned := st.spawned + 1 })
        (nt + 1) fuel
    else st

/-- Initial closure state of a scan over resolved heights `[s, t]`. -/
def initialScanState (s t : Int) : ScanState :=
  { startB := s, stopB := t, blockNumber := s, gotError := false,
    numThreads := 0, results := [], pending := [], claimed := [],
    fetched := [], resolvedWith := none, callbackFired := none,
    spawned := 0, erroredWorkers := 0 }

/-- A scan over already-resolved heights: spawn the worker pool, then
run the event loop over the schedule. -/
def scanCore (cfg : ScanCfg) (s t : Int) (sched : List Int) : ScanState :=
  runEvents cfg (spawnLoop (initialScanState s t) 0 maxThreads) sched

/-- Lines 230-232: `if (!stoppingBlock) stoppingBlock = await
getBlockNumber()` — a falsiness test, so an explicit 0 is also
replaced by the chain head. -/
def resolveStopHeight (stopP : Option Int) (chainHead : Int) : Int :=
  match stopP with
  | none => chainHead
  | some v => if v = 0 then chainHead else v

/-- Lines 234-236: `if (!startingBlock) startingBlock = stoppingBlock
- 10` — same falsiness test. -/
def resolveStartHeight (startP : Option Int) (stopB : Int) : Int :=
  match startP with
  | none => stopB - 10
  | some v => if v = 0 then stopB - 10 else v

/-- Result of `scanBlockRange` as observed by its caller: either the
invalid-range path (lines 242-244, where the executor returns -1 and
the promise is left unsettled) or a run of the scan state machine. -/
inductive ScanRun where
  | invalidRange
  | ran (st : ScanState)
deriving DecidableEq

/-- `EthEngine.scanBlockRange` (lines 222-353): resolve the height
bounds, reject inverted ranges by a bare `return -1` inside the
executor, otherwise spawn the pool and process fetch completions. -/
def scanBlockRange (cfg : ScanCfg) (startP stopP : Option Int)
    (chainHead : Int) (sched : List Int) : ScanRun :=
  let stoppingBlock := resolveStopHeight stopP chainHead
  let startingBlock := resolveStartHeight startP stoppingBlock
  if startingBlock > stoppingBlock then ScanRun.invalidRange
  else ScanRun.ran (scanCore cfg startingBlock stoppingBlock sched)

/-- What the promise delivered: the value passed to `resolve`, or
`none` when the promise was never settled (in particular on the
invalid-range path). -/
def ScanRun.settled : ScanRun → Option (List Msg)
  | ScanRun.invalidRange => none
  | ScanRun.ran st => st.resolvedWith

/-- Heights whose `getBlock` fetch was issued and completed; empty on
the invalid-range path, which performs no block-fetch at all. -/
def ScanRun.fetchedHeights : ScanRun → List Int
  | ScanRun.invalidRange => []
  | ScanRun.ran st => st.fetched

/-- Heights claimed by workers; empty on the invalid-range path. -/
def ScanRun.claimedHeights : ScanRun → List Int
  | ScanRun.invalidRange => []
  | ScanRun.ran st => st.claimed

/-- The value returned by the executor function itself: -1 on the
invalid-range path (line 243), the number of spawned workers
otherwise (line 351); in both cases it is discarded by `new Promise`. -/
def ScanRun.executorReturn : ScanRun → Int
  | ScanRun.invalidRange => -1
  | ScanRun.ran st => (st.spawned : Int)

/-- The integer interval `[a, a + n)` as a list, used to state which
heights a scan claims. -/
def intRange (a : Int) (n : Nat) : List Int :=
  (List.range n).map fun (i : Nat) => a + (i : Int)

/-! Concrete scenarios used by witnesses and counterexamples. -/

/-- A block carrying no transactions. -/
def emptyOkBlock : ScanBlock := { timestamp := 0, transactions := some [] }

/-- A node that serves an empty block at every height. -/
def allOkCfg : ScanCfg :=
  { watched := "w", fetch := fun _ => FetchResult.ok emptyOkBlock }

/-- A transaction crediting the watched address "w". -/
def watchedTxn : Txn := { toAddr := "w", fromAddr := "a", value := 5 }

/-- A block whose only transaction credits the watched address. -/
def matchBlock : ScanBlock := { timestamp := 9, transactions := some [watchedTxn] }

/-- The transfer record the scanner accumulates for `watchedTxn`. -/
def creditMsg : Msg :=
  { timestamp := 9, dir := Direction.credit, valueWei := 5, counterparty := "a" }

/-- A node serving the matching block at height 0 and empty blocks
elsewhere; every fetch succeeds. -/
def scanOkCfg : ScanCfg :=
  { watched := "w",
    fetch := fun h => if h = 0 then FetchResult.ok matchBlock else FetchResult.ok emptyOkBlock }

/-- Same node except that every height other than 0 fails to fetch. -/
def scanErrCfg : ScanCfg :=
  { watched := "w",
    fetch := fun h => if h = 0 then FetchResult.ok matchBlock else FetchResult.err }

/-- A node on which every block fetch fails. -/
def allErrCfg : ScanCfg := { watched := "w", fetch := fun _ => FetchResult.err }

/-- A schedule completing the eleven fetches of a default-range scan
ending at chain head 200. -/
def sched11 : List Int :=
  [190, 191, 192, 193, 194, 195, 196, 197, 198, 199, 200]

/-- An ABI with a single non-constant (hence payable) method "m". -/
def abiW : List AbiEntry := [{ name := some "m", constant := some false }]

/-- An engine bound to `abiW`. -/
def engW : EthEngineState :=
  { abiConfiguration := abiW, abiConfigurationDefaultWallet := none,
    configurationDefaultWallet := "0xw", binCode := "0xbin" }

/-- A node environment with gas estimate 7 and successful outcomes. -/
def envW : NodeEnv :=
  { estimateGasResult := 7, getCodeResult := "0xc",
    sendReceiptResult := Except.ok "rcpt",
    sendConfirmationResult := Except.ok (3, "rcpt"),
    staticCallResult := Except.ok "val" }

/-- Call options with no caller-supplied gas. -/
def gpNoGas : GeneralParams := { gas := none, gasLimit := none }

/-- Run-wide invariant of the scan state machine, established after
the spawn loop and preserved by every event-loop step. -/
structure ScanInv (s t : Int) (st : ScanState) : Prop where
  hs : st.startB = s
  ht : st.stopB = t
  claimed_eq : st.claimed = intRange s (st.blockNumber - s).toNat
  start_le : s ≤ st.blockNumber
  bn_le : s ≤ t → st.blockNumber ≤ t + 1
  conserve : st.claimed.Perm (st.fetched ++ st.pending)
  threads : st.pending.length + st.erroredWorkers = st.numThreads
  err_iff : st.gotError = true ↔ st.erroredWorkers ≠ 0
  exit_reason : st.numThreads = 0 →
    st.claimed = [] ∨ st.gotError = true ∨ t < st.blockNumber
  cb_zero : ∀ b, st.callbackFired = some b → st.numThreads = 0

lemma intRange_succ (a : Int) (n : Nat) :
    intRange a (n + 1) = intRange a n ++ [a + (n : Int)] := by
  simp [intRange, List.range_succ]

lemma intRange_length (a : Int) (n : Nat) : (intRange a n).length = n := by
  unfold intRange
  rw [List.length_map, List.length_range]

lemma intRange_pairwise (a : Int) (n : Nat) :
    (intRange a n).Pairwise (fun x y => x < y) := by
  unfold intRange
  refine List.pairwise_map.mpr ((List.pairwise_lt_range n).imp ?_)
  intro i j hij
  show a + (i : Int) < a + (j : Int)
  omega

lemma claimed_append (s bn : Int) (cl : List Int)
    (hcl : cl = intRange s (bn - s).toNat) (hle : s ≤ bn) :
    cl ++ [bn] = intRange s ((bn + 1) - s).toNat := by
  subst hcl
  rw [show ((bn + 1) - s).toNat = (bn - s).toNat + 1 from by omega, intRange_succ,
    show s + (((bn - s).toNat : Nat) : Int) = bn from by omega]

lemma asyncScanNextBlock_claim {st : ScanState} (hge : st.gotError = false)
    (hbn : ¬ st.blockNumber > st.stopB) :
    asyncScanNextBlock st =
      { st with blockNumber := st.blockNumber + 1,
                pending := st.pending ++ [st.blockNumber],
                claimed := st.claimed ++ [st.blockNumber] } := by
  unfold asyncScanNextBlock
  rw [if_neg (by simp [hge]), if_neg hbn]

lemma asyncScanNextBlock_inv {s t : Int} {st : ScanState}
    (hs : st.startB = s) (ht : st.stopB = t)
    (hclaimed : st.claimed = intRange s (st.blockNumber - s).toNat)
    (hstart : s ≤ st.blockNumber)
    (hbn : s ≤ t → st.blockNumber ≤ t + 1)
    (hcons : st.claimed.Perm (st.fetched ++ st.pending))
    (hthreads : st.pending.length + st.erroredWorkers + 1 = st.numThreads)
    (herr : st.gotError = true ↔ st.erroredWorkers ≠ 0)
    (hcbnone : st.callbackFired = none) :
    ScanInv s t (asyncScanNextBlock st) := by
  unfold asyncScanNextBlock exitThread
  by_cases hge : st.gotError = true
  · rw [if_pos hge]
    exact {
      hs := hs, ht := ht, claimed_eq := hclaimed, start_le := hstart,
      bn_le := hbn, conserve := hcons,
      threads := show st.pending.length + st.erroredWorkers = st.numThreads - 1 from by omega,
      err_iff := herr,
      exit_reason := fun _ => Or.inr (Or.inl hge),
      cb_zero := by
        intro b hb
        have hb2 : (if st.numThreads - 1 = 0 then some st.gotError
            else st.callbackFired) = some b := hb
        show st.numThreads - 1 = 0
        by_cases hz : st.numThreads - 1 = 0
        · exact hz
        · rw [if_neg hz, hcbnone] at hb2; cases hb2 }
  · by_cases hgt : st.blockNumber > st.stopB
    · rw [if_neg hge, if_pos hgt]
      exact {
        hs := hs, ht := ht, claimed_eq := hclaimed, start_le := hstart,
        bn_le := hbn, conserve := hcons,
        threads := show st.pending.length + st.erroredWorkers = st.numThreads - 1 from by omega,
        err_iff := herr,
        exit_reason := fun _ => Or.inr (Or.inr (by rw [← ht]; exact hgt)),
        cb_zero := by
          intro b hb
          have hb2 : (if st.numThreads - 1 = 0 then some st.gotError
              else st.callbackFired) = some b := hb
          show st.numThreads - 1 = 0
          by_cases hz : st.numThreads - 1 = 0
          · exact hz
          · rw [if_neg hz, hcbnone] at hb2; cases hb2 }
    · rw [if_neg hge, if_neg hgt]
      have hble : st.blockNumber ≤ t := by rw [← ht]; exact not_lt.mp hgt
      exact {
        hs := hs, ht := ht,
        claimed_eq :=
          show st.claimed ++ [st.blockNumber]
              = intRange s ((st.blockNumber + 1) - s).toNat from
            claimed_append s st.blockNumber st.claimed hclaimed hstart,
        start_le := show s ≤ st.blockNumber + 1 from by omega,
        bn_le := fun _ => show st.blockNumber + 1 ≤ t + 1 from by omega,
        conserve :=
          show (st.claimed ++ [st.blockNumber]).Perm
              (st.fetched ++ (st.pending ++ [st.blockNumber])) from by
            have h1 := hcons.append_right [st.blockNumber]
            simpa [List.append_assoc] using h1,
        threads :=
          show (st.pending ++ [st.blockNumber]).length + st.erroredWorkers
              = st.numThreads from by
            simp only [List.length_append, List.length_cons, List.length_nil]
            omega,
        err_iff := herr,
        exit_reason := fun h0 =>
          absurd (show st.numThreads = 0 from h0) (by omega),
        cb_zero := by
          intro b hb
          have hb2 : st.callbackFired = some b := hb
          rw [hcbnone] at hb2; cases hb2 }

lemma getBlockCallback_inv {cfg : ScanCfg} {s t : Int} {st : ScanState} (h : Int)
    (inv : ScanInv s t st) : ScanInv s t (getBlockCallback cfg st h) := by
  unfold getBlockCallback
  by_cases hmem : h ∈ st.pending
  · rw [if_pos hmem]
    have hlen : 0 < st.pending.length := List.length_pos_of_mem hmem
    have hel : (st.pending.erase h).length = st.pending.length - 1 :=
      List.length_erase_of_mem hmem
    have hconserve : st.claimed.Perm ((st.fetched ++ [h]) ++ st.pending.erase h) := by
      refine inv.conserve.trans ?_
      have h1 := (List.perm_cons_erase hmem).append_left st.fetched
      simpa [List.append_assoc] using h1
    cases hf : cfg.fetch h with
    | err =>
      simp only [hf]
      exact {
        hs := inv.hs, ht := inv.ht, claimed_eq := inv.claimed_eq,
        start_le := inv.start_le, bn_le := inv.bn_le,
        conserve := hconserve,
        threads :=
          show (st.pending.erase h).length + (st.erroredWorkers + 1)
              = st.numThreads from by
            rw [hel]; have := inv.threads; omega,
        err_iff := by
          show true = true ↔ st.erroredWorkers + 1 ≠ 0
          simp,
        exit_reason := fun _ => Or.inr (Or.inl rfl),
        cb_zero := fun b hb => inv.cb_zero b hb }
    | ok b =>
      simp only [hf]
      refine asyncScanNextBlock_inv inv.hs inv.ht inv.claimed_eq inv.start_le
        inv.bn_le hconserve ?_ inv.err_iff ?_
      · show (st.pending.erase h).length + st.erroredWorkers + 1 = st.numThreads
        rw [hel]; have := inv.threads; omega
      · show st.callbackFired = none
        rcases hcb : st.callbackFired with _ | b0
        · rfl
        · exfalso
          have h0 := inv.cb_zero b0 hcb
          have := inv.threads
          omega
  · rw [if_neg hmem]; exact inv

lemma runEvents_inv {cfg : ScanCfg} {s t : Int} :
    ∀ (sched : List Int) (st : ScanState),
      ScanInv s t st → ScanInv s t (runEvents cfg st sched) := by
  intro sched
  induction sched with
  | nil => intro st inv; exact inv
  | cons h rest ih => intro st inv; exact ih _ (getBlockCallback_inv h inv)

lemma initial_inv (s t : Int) : ScanInv s t (initialScanState s t) := by
  refine {
    hs := rfl, ht := rfl,
    claimed_eq := ?_,
    start_le := le_refl s,
    bn_le := fun hst => show s ≤ t + 1 from by omega,
    conserve := List.Perm.refl _,
    threads := rfl,
    err_iff := by simp [initialScanState],
    exit_reason := fun _ => Or.inl rfl,
    cb_zero := fun b hb => by cases hb }
  show ([] : List Int) = intRange s (s - s).toNat
  rw [show (s - s).toNat = 0 from by omega]
  rfl

lemma spawnIter_eq (st : ScanState) (hge : st.gotError = false)
    (hble : ¬ st.blockNumber > st.stopB) :
    asyncScanNextBlock
        { st with numThreads := st.numThreads + 1, spawned := st.spawned + 1 }
      = { st with numThreads := st.numThreads + 1, spawned := st.spawned + 1,
                  blockNumber := st.blockNumber + 1,
                  pending := st.pending ++ [st.blockNumber],
                  claimed := st.claimed ++ [st.blockNumber] } := by
  simp [asyncScanNextBlock, hge, hble]

lemma spawnLoop_inv {s t : Int} :
    ∀ (fuel nt : Nat) (st : ScanState), ScanInv s t st →
      st.gotError = false → st.callbackFired = none → st.resolvedWith = none →
      st.blockNumber = s + (nt : Int) →
      ScanInv s t (spawnLoop st nt fuel) ∧
      (spawnLoop st nt fuel).gotError = false ∧
      (spawnLoop st nt fuel).callbackFired = none ∧
      (spawnLoop st nt fuel).resolvedWith = none := by
  intro fuel
  induction fuel with
  | zero => intro nt st inv hge hcb hres hbn; exact ⟨inv, hge, hcb, hres⟩
  | succ fuel ih =>
    intro nt st inv hge hcb hres hbn
    show _ ∧ _
    rw [spawnLoop]
    by_cases hcond : st.startB + (nt : Int) ≤ st.stopB
    · rw [if_pos hcond]
      have hs := inv.hs
      have ht := inv.ht
      have hble : ¬ st.blockNumber > st.stopB := by omega
      rw [spawnIter_eq st hge hble]
      refine ih (nt + 1) _ ?_ hge hcb hres ?_
      · exact {
          hs := hs, ht := ht,
          claimed_eq :=
            show st.claimed ++ [st.blockNumber]
                = intRange s ((st.blockNumber + 1) - s).toNat from
              claimed_append s st.blockNumber st.claimed inv.claimed_eq inv.start_le,
          start_le := show s ≤ st.blockNumber + 1 from by
            have := inv.start_le; omega,
          bn_le := fun _ => show st.blockNumber + 1 ≤ t + 1 from by omega,
          conserve :=
            show (st.claimed ++ [st.blockNumber]).Perm
                (st.fetched ++ (st.pending ++ [st.blockNumber])) from by
              have h1 := inv.conserve.append_right [st.blockNumber]
              simpa [List.append_assoc] using h1,
          threads :=
            show (st.pending ++ [st.blockNumber]).length + st.erroredWorkers
                = st.numThreads + 1 from by
              simp only [List.length_append, List.length_cons, List.length_nil]
              have := inv.threads; omega,
          err_iff := inv.err_iff,
          exit_reason := fun h0 =>
            absurd (show st.numThreads + 1 = 0 from h0) (by omega),
          cb_zero := by
            intro b hb
            have hb2 : st.callbackFired = some b := hb
            rw [hcb] at hb2; cases hb2 }
      · show st.blockNumber + 1 = s + ((nt + 1 : Nat) : Int)
        push_cast
        omega
    · rw [if_neg hcond]
      exact ⟨inv, hge, hcb, hres⟩

lemma scanCore_inv (cfg : ScanCfg) (s t : Int) (sched : List Int) :
    ScanInv s t (scanCore cfg s t sched) := by
  unfold scanCore
  refine runEvents_inv sched _ ?_
  exact (spawnLoop_inv maxThreads 0 (initialScanState s t) (initial_inv s t)
    rfl rfl rfl (by simp [initialScanState])).1

lemma scanCore_resolved_of_spawn_none (s t : Int) :
    (spawnLoop (initialScanState s t) 0 maxThreads).resolvedWith = none :=
  (spawnLoop_inv maxThreads 0 (initialScanState s t) (initial_inv s t)
    rfl rfl rfl (by simp [initialScanState])).2.2.2

lemma asyncScanNextBlock_claimed_ne {st : ScanState} (hne : st.claimed ≠ []) :
    (asyncScanNextBlock st).claimed ≠ [] := by
  unfold asyncScanNextBlock exitThread
  by_cases hge : st.gotError = true
  · rw [if_pos hge]; exact hne
  · by_cases hgt : st.blockNumber > st.stopB
    · rw [if_neg hge, if_pos hgt]; exact hne
    · rw [if_neg hge, if_neg hgt]
      show st.claimed ++ [st.blockNumber] ≠ []
      simp

lemma getBlockCallback_claimed_ne {cfg : ScanCfg} {st : ScanState} (h : Int)
    (hne : st.claimed ≠ []) : (getBlockCallback cfg st h).claimed ≠ [] := by
  unfold getBlockCallback
  by_cases hmem : h ∈ st.pending
  · rw [if_pos hmem]
    cases hf : cfg.fetch h with
    | err => simp only [hf]; exact hne
    | ok b => simp only [hf]; exact asyncScanNextBlock_claimed_ne hne
  · rw [if_neg hmem]; exact hne

lemma runEvents_claimed_ne {cfg : ScanCfg} :
    ∀ (sched : List Int) (st : ScanState),
      st.claimed ≠ [] → (runEvents cfg st sched).claimed ≠ [] := by
  intro sched
  induction sched with
  | nil => intro st hne; exact hne
  | cons h rest ih => intro st hne; exact ih _ (getBlockCallback_claimed_ne h hne)

lemma spawnLoop_claimed_ne :
    ∀ (fuel nt : Nat) (st : ScanState),
      st.claimed ≠ [] → (spawnLoop st nt fuel).claimed ≠ [] := by
  intro fuel
  induction fuel with
  | zero => intro nt st hne; exact hne
  | succ fuel ih =>
    intro nt st hne
    rw [spawnLoop]
    by_cases hcond : st.startB + (nt : Int) ≤ st.stopB
    · rw [if_pos hcond]
      exact ih _ _ (asyncScanNextBlock_claimed_ne hne)
    · rw [if_neg hcond]; exact hne

lemma scanCore_claimed_ne (cfg : ScanCfg) {s t : Int} (sched : List Int)
    (hst : s ≤ t) : (scanCore cfg s t sched).claimed ≠ [] := by
  unfold scanCore maxThreads
  refine runEvents_claimed_ne sched _ ?_
  rw [show (20 : Nat) = Nat.succ 19 from rfl, spawnLoop]
  rw [if_pos (show (initialScanState s t).startB + ((0 : Nat) : Int)
      ≤ (initialScanState s t).stopB from by simp [initialScanState]; omega)]
  refine spawnLoop_claimed_ne 19 1 _ ?_
  rw [spawnIter_eq _ (by rfl) (show ¬ (initialScanState s t).blockNumber
      > (initialScanState s t).stopB from by simp [initialScanState]; omega)]
  show (initialScanState s t).claimed ++ [(initialScanState s t).blockNumber] ≠ []
  simp

lemma runEvents_allErr {cfg : ScanCfg} (hall : ∀ h0 : Int, cfg.fetch h0 = FetchResult.err) :
    ∀ (sched : List Int) (st : ScanState),
      st.resolvedWith = none → (runEvents cfg st sched).resolvedWith = none := by
  intro sched
  induction sched with
  | nil => intro st hres; exact hres
  | cons h rest ih =>
    intro st hres
    refine ih _ ?_
    unfold getBlockCallback
    by_cases hmem : h ∈ st.pending
    · rw [if_pos hmem, hall h]
      exact hres
    · rw [if_neg hmem]; exact hres

lemma scanCore_complete {cfg : ScanCfg} {s t : Int} {sched : List Int}
    (hst : s ≤ t)
    (hge : (scanCore cfg s t sched).gotError = false)
    (hpend : (scanCore cfg s t sched).pending = []) :
    (scanCore cfg s t sched).claimed = intRange s ((t + 1) - s).toNat ∧
    (scanCore cfg s t sched).fetched.Perm (scanCore cfg s t sched).claimed := by
  have inv := scanCore_inv cfg s t sched
  have herr0 : (scanCore cfg s t sched).erroredWorkers = 0 := by
    by_contra hne
    have hgt := inv.err_iff.mpr hne
    rw [hge] at hgt
    cases hgt
  have hnt : (scanCore cfg s t sched).numThreads = 0 := by
    have hth := inv.threads
    rw [hpend] at hth
    simp at hth
    omega
  have hcne := scanCore_claimed_ne cfg sched hst
  have hbn_gt : t < (scanCore cfg s t sched).blockNumber := by
    rcases inv.exit_reason hnt with h1 | h1 | h1
    · exact absurd h1 hcne
    · rw [hge] at h1; cases h1
    · exact h1
  have hbn : (scanCore cfg s t sched).blockNumber = t + 1 := by
    have := inv.bn_le hst
    omega
  constructor
  · have hcl := inv.claimed_eq
    rw [hbn] at hcl
    exact hcl
  · have hco := inv.conserve
    rw [hpend, List.append_nil] at hco
    exact hco.symm

lemma callFunction_estimateGasCalls (eng : EthEngineState) (env : NodeEnv)
    (name : String) (gp : GeneralParams) (conf : Option EthConfirmation)
    (abi : Option (List AbiEntry)) (ca : Option String) :
    (callFunction eng env name gp conf abi ca).estimateGasCalls
      = (if gp.gas = none ∧ isMethodPayable name
            (match abi with | none => eng.abiConfiguration | some a => a) = true
         then 1 else 0) := by
  rcases conf with _ | c
  · by_cases hc : gp.gas = none ∧ isMethodPayable name
        (match abi with | none => eng.abiConfiguration | some a => a) = true
    · simp [callFunction, hc]
    · simp [callFunction, hc]
  · rcases c <;>
      (by_cases hc : gp.gas = none ∧ isMethodPayable name
          (match abi with | none => eng.abiConfiguration | some a => a) = true) <;>
      simp [callFunction, hc]

/-- C9: an invocation whose confirmation mode is left undefined behaves
exactly as if RECEIPT mode had been requested: the same trace is
produced, the call is broadcast once, and the outcome is the mined
receipt (or the rejection) reported by the node. -/
theorem c9_undefined_confirmation_receipt (eng : EthEngineState) (env : NodeEnv)
    (name : String) (gp : GeneralParams) (abi : Option (List AbiEntry))
    (ca : Option String) :
    callFunction eng env name gp none abi ca
      = callFunction eng env name gp (some EthConfirmation.RECEIPT) abi ca ∧
    (callFunction eng env name gp none abi ca).sendCalls = 1 ∧
    (callFunction eng env name gp none abi ca).outcome
      = (match env.sendReceiptResult with
          | Except.ok r => CallOutcome.resolvedReceipt r
          | Except.error e => CallOutcome.rejected e) :=
  ⟨rfl, rfl, rfl⟩

/-- C2 counterexample: a STATIC invocation of the payable method "m"
without caller-supplied gas does make a gas-estimation call (one, not
zero), refuting the claim that no gas estimation happens in STATIC
mode regardless of payability. -/
theorem c2_counterexample_static_estimates_gas :
    (callFunction engW envW "m" gpNoGas (some EthConfirmation.STATIC) none none).estimateGasCalls = 1 ∧
    ¬ (callFunction engW envW "m" gpNoGas (some EthConfirmation.STATIC) none none).estimateGasCalls = 0 := by
  decide

/-- C2 (amended): a STATIC invocation broadcasts no transaction and
performs exactly one read-only call, resolving with its return value;
however gas estimation is not suppressed — it still runs exactly when
the method is payable and the caller supplied no gas. -/
theorem c2_static_no_broadcast (eng : EthEngineState) (env : NodeEnv)
    (name : String) (gp : GeneralParams) (abi : Option (List AbiEntry))
    (ca : Option String) :
    (callFunction eng env name gp (some EthConfirmation.STATIC) abi ca).sendCalls = 0 ∧
    (callFunction eng env name gp (some EthConfirmation.STATIC) abi ca).staticCalls = 1 ∧
    (∀ v : String, env.staticCallResult = Except.ok v →
      (callFunction eng env name gp (some EthConfirmation.STATIC) abi ca).outcome
        = CallOutcome.resolvedStaticValue v) ∧
    (callFunction eng env name gp (some EthConfirmation.STATIC) abi ca).estimateGasCalls
      = (if gp.gas = none ∧ isMethodPayable name
            (match abi with | none => eng.abiConfiguration | some a => a) = true
         then 1 else 0) := by
  refine ⟨rfl, rfl, ?_, callFunction_estimateGasCalls eng env name gp
    (some EthConfirmation.STATIC) abi ca⟩
  intro v hv
  show (match env.staticCallResult with
        | Except.ok v => CallOutcome.resolvedStaticValue v
        | Except.error e => CallOutcome.rejected e) = _
  rw [hv]

/-- C2 witness: for the concrete engine, environment and method of the
counterexample, the STATIC invocation resolves with the read-only call
result "val" and broadcasts nothing. -/
theorem c2_static_no_broadcast_witness :
    (callFunction engW envW "m" gpNoGas (some EthConfirmation.STATIC) none none).outcome
      = CallOutcome.resolvedStaticValue "val" ∧
    (callFunction engW envW "m" gpNoGas (some EthConfirmation.STATIC) none none).sendCalls = 0 :=
  ⟨(c2_static_no_broadcast engW envW "m" gpNoGas none none).2.2.1 "val" rfl,
   (c2_static_no_broadcast engW envW "m" gpNoGas none none).1⟩

/-- C5: a payable method invoked without caller-supplied gas triggers
exactly one gas-estimation call, and the dispatched parameters carry
gas = estimatedGas and gasLimit = estimatedGas * 2 exactly. -/
theorem c5_payable_gas_plan (eng : EthEngineState) (env : NodeEnv)
    (name : String) (gp : GeneralParams) (conf : Option EthConfirmation)
    (abi : Option (List AbiEntry)) (ca : Option String)
    (hpay : isMethodPayable name
      (match abi with | none => eng.abiConfiguration | some a => a) = true)
    (hgas : gp.gas = none) :
    (callFunction eng env name gp conf abi ca).estimateGasCalls = 1 ∧
    (callFunction eng env name gp conf abi ca).dispatchedGas
      = some env.estimateGasResult ∧
    (callFunction eng env name gp conf abi ca).dispatchedGasLimit
      = some (env.estimateGasResult * 2) := by
  rcases conf with _ | c
  · refine ⟨?_, ?_, ?_⟩ <;> simp [callFunction, hgas, hpay]
  · rcases c <;> exact ⟨by simp [callFunction, hgas, hpay],
      by simp [callFunction, hgas, hpay], by simp [callFunction, hgas, hpay]⟩

/-- C5 witness: invoking the payable method "m" of the concrete engine
without gas yields one estimation call and the planned gas pair
(7, 14). -/
theorem c5_payable_gas_plan_witness :
    (callFunction engW envW "m" gpNoGas none none none).estimateGasCalls = 1 ∧
    (callFunction engW envW "m" gpNoGas none none none).dispatchedGas
      = some envW.estimateGasResult ∧
    (callFunction engW envW "m" gpNoGas none none none).dispatchedGasLimit
      = some (envW.estimateGasResult * 2) :=
  c5_payable_gas_plan engW envW "m" gpNoGas none none none (by decide) rfl

/-- C6: payability lookup is a linear scan whose first name match
decides the result; a method matching no entry is reported non-payable,
and for such a method no gas estimation is attempted by the invoker. -/
theorem c6_payability_first_match (name : String) (abi : List AbiEntry) :
    isMethodPayable name abi
      = (match abi.find? (fun e => decide (e.name = some name)) with
          | some e => !(e.constant.getD false)
          | none => false) ∧
    (∀ (eng : EthEngineState) (env : NodeEnv) (gp : GeneralParams)
        (conf : Option EthConfirmation) (ca : Option String),
      abi.find? (fun e => decide (e.name = some name)) = none →
      (callFunction eng env name gp conf (some abi) ca).estimateGasCalls = 0) := by
  have hmain : isMethodPayable name abi
      = (match abi.find? (fun e => decide (e.name = some name)) with
          | some e => !(e.constant.getD false)
          | none => false) := by
    induction abi with
    | nil => rfl
    | cons e rest ih =>
      by_cases he : e.name = some name
      · rw [show isMethodPayable name (e :: rest)
            = (if e.name = some name then !(e.constant.getD false)
               else isMethodPayable name rest) from rfl,
          if_pos he, List.find?_cons_of_pos _ (by simpa using he)]
      · rw [show isMethodPayable name (e :: rest)
            = (if e.name = some name then !(e.constant.getD false)
               else isMethodPayable name rest) from rfl,
          if_neg he, ih, List.find?_cons_of_neg _ (by simpa using he)]
  refine ⟨hmain, ?_⟩
  intro eng env gp conf ca hnone
  have hpay : isMethodPayable name abi = false := by
    rw [hmain, hnone]
  rw [callFunction_estimateGasCalls, if_neg]
  rintro ⟨-, hp⟩
  simp [hpay] at hp

/-- C6 witness: the method "zzz" matches no entry of the one-method
ABI, so its invocation performs no gas estimation. -/
theorem c6_payability_first_match_witness :
    (callFunction engW envW "zzz" gpNoGas none (some abiW) none).estimateGasCalls = 0 :=
  (c6_payability_first_match "zzz" abiW).2 engW envW gpNoGas none none (by decide)

/-- C4: for every scan over resolved heights s ≤ t in which no fetch
fails (the error flag stays false) and every issued fetch completes
(no callback left in flight), the claimed heights are exactly the
closed interval from s to t: their count is t - s + 1, they are
strictly increasing (hence claimed exactly once), and the completed
fetches are exactly the claimed heights. -/
theorem c4_full_range_visited (cfg : ScanCfg) (s t : Int) (sched : List Int)
    (hst : s ≤ t)
    (hge : (scanCore cfg s t sched).gotError = false)
    (hpend : (scanCore cfg s t sched).pending = []) :
    (scanCore cfg s t sched).claimed = intRange s ((t + 1) - s).toNat ∧
    (scanCore cfg s t sched).claimed.length = ((t + 1) - s).toNat ∧
    (scanCore cfg s t sched).claimed.Pairwise (fun a b => a < b) ∧
    (scanCore cfg s t sched).fetched.Perm (scanCore cfg s t sched).claimed := by
  obtain ⟨h1, h2⟩ := scanCore_complete hst hge hpend
  refine ⟨h1, ?_, ?_, h2⟩
  · rw [h1, intRange_length]
  · rw [h1]; exact intRange_pairwise s _

/-- C4 witness: a completed three-block scan claims exactly the
heights 0, 1, 2, each once, in increasing order. -/
theorem c4_full_range_visited_witness :
    (scanCore allOkCfg 0 2 [0, 1, 2]).claimed
      = intRange 0 (((2 : Int) + 1) - 0).toNat ∧
    (scanCore allOkCfg 0 2 [0, 1, 2]).claimed.length
      = (((2 : Int) + 1) - 0).toNat ∧
    (scanCore allOkCfg 0 2 [0, 1, 2]).claimed.Pairwise (fun a b => a < b) ∧
    (scanCore allOkCfg 0 2 [0, 1, 2]).fetched.Perm
      (scanCore allOkCfg 0 2 [0, 1, 2]).claimed :=
  c4_full_range_visited allOkCfg 0 2 [0, 1, 2] (by decide) (by decide) (by decide)

/-- C7 counterexample: in a two-worker scan, the promise is resolved
(with the accumulated results) by the first worker to exit while the
other worker's fetch is still in flight — the scan outcome is
delivered before every spawned worker has exited. -/
theorem c7_counterexample_early_resolve :
    (scanCore allOkCfg 0 1 [0]).resolvedWith = some [] ∧
    (scanCore allOkCfg 0 1 [0]).pending = [1] ∧
    (scanCore allOkCfg 0 1 [0]).numThreads = 1 ∧
    (scanCore allOkCfg 0 1 [0]).callbackFired = none := by
  decide

/-- C7 (amended): the throughput report and the completion callback
are delivered only once every spawned worker has exited (no fetch in
flight and the live-worker count at zero), but the promise itself is
resolved by the first worker to exit, possibly while others are still
processing. -/
theorem c7_callback_only_after_all_exit (cfg : ScanCfg) (s t : Int)
    (sched : List Int) (b : Bool)
    (hcb : (scanCore cfg s t sched).callbackFired = some b) :
    (scanCore cfg s t sched).pending = [] ∧
    (scanCore cfg s t sched).numThreads = 0 := by
  have inv := scanCore_inv cfg s t sched
  have hnt := inv.cb_zero b hcb
  refine ⟨?_, hnt⟩
  have hth := inv.threads
  rw [hnt] at hth
  have hlen : (scanCore cfg s t sched).pending.length = 0 := by omega
  exact List.length_eq_zero.mp hlen

/-- C7 witness: when the completion callback has fired in a concrete
completed scan, no fetch is in flight and no worker is live. -/
theorem c7_callback_only_after_all_exit_witness :
    (scanCore allOkCfg 0 1 [0, 1]).pending = [] ∧
    (scanCore allOkCfg 0 1 [0, 1]).numThreads = 0 :=
  c7_callback_only_after_all_exit allOkCfg 0 1 [0, 1] false (by decide)

/-- C1 counterexample: a scan in which a fetch failed resolves with
exactly the same bare transfer list as a fully successful scan of the
same range — the delivered outcome carries no partial marker, so the
caller cannot distinguish the two. -/
theorem c1_counterexample_unmarked_partial :
    (scanCore scanOkCfg 0 1 [0, 1]).gotError = false ∧
    (scanCore scanErrCfg 0 1 [1, 0]).gotError = true ∧
    (scanCore scanOkCfg 0 1 [0, 1]).resolvedWith = some [creditMsg] ∧
    (scanCore scanErrCfg 0 1 [1, 0]).resolvedWith = some [creditMsg] ∧
    (scanCore scanErrCfg 0 1 [1, 0]).resolvedWith
      = (scanCore scanOkCfg 0 1 [0, 1]).resolvedWith := by
  decide

/-- C1 (amended): after a fetch failure the completion callback — the
only channel carrying the error flag — never fires (the failed worker
never exits, so the live count never reaches zero), and when every
fetch fails the promise is never settled at all; accumulated transfers
are delivered, without any partial marker, only when some other worker
exits. -/
theorem c1_error_scan_reporting (cfg : ScanCfg) (s t : Int) (sched : List Int) :
    ((scanCore cfg s t sched).gotError = true →
      (scanCore cfg s t sched).callbackFired = none) ∧
    ((∀ h0 : Int, cfg.fetch h0 = FetchResult.err) →
      (scanCore cfg s t sched).resolvedWith = none) := by
  constructor
  · intro hge
    have inv := scanCore_inv cfg s t sched
    rcases hcb : (scanCore cfg s t sched).callbackFired with _ | b0
    · rfl
    · exfalso
      have hnt := inv.cb_zero b0 hcb
      have hth := inv.threads
      have hne := inv.err_iff.mp hge
      omega
  · intro hall
    unfold scanCore
    exact runEvents_allErr hall sched _ (scanCore_resolved_of_spawn_none s t)

/-- C1 witness: in the concrete errored scan the callback never fired,
and in an all-failures scan the promise stayed unsettled. -/
theorem c1_error_scan_reporting_witness :
    (scanCore scanErrCfg 0 1 [1, 0]).callbackFired = none ∧
    (scanCore allErrCfg 0 0 [0]).resolvedWith = none :=
  ⟨(c1_error_scan_reporting scanErrCfg 0 1 [1, 0]).1 (by decide),
   (c1_error_scan_reporting allErrCfg 0 0 [0]).2 (fun h0 => rfl)⟩

/-- C3: a scan whose resolved startingBlock exceeds its resolved
stoppingBlock performs no block-fetch at all, but the failure is never
delivered to the caller: the executor returns -1 (a value `new
Promise` discards) and the promise is left unsettled, so no typed
InvalidRange outcome is reported. -/
theorem c3_invalid_range_never_settles (cfg : ScanCfg) (chainHead : Int)
    (sched : List Int) :
    scanBlockRange cfg (some 5) (some 3) chainHead sched = ScanRun.invalidRange ∧
    (scanBlockRange cfg (some 5) (some 3) chainHead sched).settled = none ∧
    (scanBlockRange cfg (some 5) (some 3) chainHead sched).fetchedHeights = [] ∧
    (scanBlockRange cfg (some 5) (some 3) chainHead sched).claimedHeights = [] ∧
    (scanBlockRange cfg (some 5) (some 3) chainHead sched).executorReturn = -1 :=
  ⟨rfl, rfl, rfl, rfl, rfl⟩

/-- C8: an omitted stopHeight resolves to the chain head, an omitted
startHeight resolves to the resolved stopHeight minus 10, and a scan
with both omitted runs over the eleven heights ending at the chain
head — exactly those heights are claimed in any completed error-free
run. -/
theorem c8_default_heights :
    (∀ chainHead : Int, resolveStopHeight none chainHead = chainHead) ∧
    (∀ stopB : Int, resolveStartHeight none stopB = stopB - 10) ∧
    (∀ (cfg : ScanCfg) (chainHead : Int) (sched : List Int),
      scanBlockRange cfg none none chainHead sched
        = ScanRun.ran (scanCore cfg (chainHead - 10) chainHead sched)) ∧
    (∀ (cfg : ScanCfg) (chainHead : Int) (sched : List Int),
      (scanCore cfg (chainHead - 10) chainHead sched).gotError = false →
      (scanCore cfg (chainHead - 10) chainHead sched).pending = [] →
      (scanCore cfg (chainHead - 10) chainHead sched).claimed
        = intRange (chainHead - 10) 11) := by
  refine ⟨fun _ => rfl, fun _ => rfl, ?_, ?_⟩
  · intro cfg chainHead sched
    simp only [scanBlockRange]
    rw [if_neg (show ¬ resolveStartHeight none (resolveStopHeight none chainHead)
        > resolveStopHeight none chainHead from by
      simp only [resolveStartHeight, resolveStopHeight]; omega)]
    rfl
  · intro cfg chainHead sched hge hpend
    have h1 := (scanCore_complete
      (show chainHead - 10 ≤ chainHead from by omega) hge hpend).1
    rw [h1, show ((chainHead + 1) - (chainHead - 10)).toNat = 11 from by omega]

/-- C8 witness: with chain head 200 and both heights omitted, the scan
runs over heights 190 to 200 and a completing schedule claims exactly
those eleven heights. -/
theorem c8_default_heights_witness :
    (scanCore allOkCfg ((200 : Int) - 10) 200 sched11).claimed
      = intRange ((200 : Int) - 10) 11 :=
  c8_default_heights.2.2.2 allOkCfg 200 sched11 (by decide) (by decide)

/-- C10: a height supplied as 0 is treated exactly like an omitted
height, because the unset check tests falsiness: startHeight 0 becomes
the resolved stopHeight minus 10, stopHeight 0 becomes the chain head,
and the whole scan behaves identically to one with both omitted. -/
theorem c10_zero_height_unset :
    (∀ stopB : Int, resolveStartHeight (some 0) stopB = stopB - 10) ∧
    (∀ chainHead : Int, resolveStopHeight (some 0) chainHead = chainHead) ∧
    (∀ stopB : Int, resolveStartHeight (some 0) stopB = resolveStartHeight none stopB) ∧
    (∀ chainHead : Int,
      resolveStopHeight (some 0) chainHead = resolveStopHeight none chainHead) ∧
    (∀ (cfg : ScanCfg) (chainHead : Int) (sched : List Int),
      scanBlockRange cfg (some 0) (some 0) chainHead sched
        = scanBlockRange cfg none none chainHead sched) :=
  ⟨fun _ => rfl, fun _ => rfl, fun _ => rfl, fun _ => rfl, fun _ _ _ => rfl⟩
